import Mathlib

/-!
Verification of the configuration-merge and process-supervision subsystem of
`src/dp/agent/cli/templates/ui/ui_utils.py` (classes `UIConfigManager` and
`UIProcessManager`).

The Python code is shallowly embedded: JSON documents become an inductive
`JValue` whose objects are association lists (Python dicts, unique keys,
insertion-ordered); the OS-facing effects of the process supervisor (spawn,
poll, terminate, kill, sleep) become explicit inputs (environment records
describing what the OS would report) and outputs (event traces and `Except`
values standing for raised exceptions).  Durations are measured in tenths of
a time unit, so `20` is the 2-unit backend settle interval and `5` is the
0.5-unit cleanup grace period.
-/

set_option autoImplicit false

/-- A JSON-like value: Python dicts become association lists (insertion
order preserved, keys unique in any value produced by `json.load`). -/
inductive JValue where
  | obj : List (String × JValue) → JValue
  | arr : List JValue → JValue
  | str : String → JValue
  | num : Int → JValue
  | bool : Bool → JValue
  | null : JValue

/-- Dictionary lookup `d[k]` (first matching key). -/
def lookupKey : List (String × JValue) → String → Option JValue
  | [], _ => none
  | (k', v) :: rest, k => if k' = k then some v else lookupKey rest k

/-- Dictionary assignment `d[k] = v`: replaces the value at an existing key
in place, appends a fresh key at the end (Python dict insertion order). -/
def setKey : List (String × JValue) → String → JValue → List (String × JValue)
  | [], k, v => [(k, v)]
  | (k', v') :: rest, k, v =>
      if k' = k then (k, v) :: rest else (k', v') :: setKey rest k v

mutual

/-- Embeds `UIConfigManager._deep_merge(base, update)`: for each key of `update` in
order, if the key is present in `base` and both sides hold dicts, merge
recursively; otherwise the update value replaces the base value. -/
def deepMerge : List (String × JValue) → List (String × JValue) → List (String × JValue)
  | base, [] => base
  | base, (k, v) :: rest => deepMerge (mergeEntry base k v) rest
termination_by _ update => sizeOf update

/-- The single step `_deep_merge` performs for one `update` entry
(`base[key] = ...`). -/
def mergeEntry (base : List (String × JValue)) (k : String) (v : JValue) :
    List (String × JValue) :=
  match lookupKey base k, v with
  | some (JValue.obj bsub), JValue.obj vsub =>
      setKey base k (JValue.obj (deepMerge bsub vsub))
  | _, _ => setKey base k v
termination_by sizeOf v

end

/-- The keys of a dictionary, in order. -/
def dictKeys (d : List (String × JValue)) : List String := d.map Prod.fst

/-- Whether a JSON value is a nested mapping (a Python `dict`). -/
def JValue.isObj : JValue → Bool
  | JValue.obj _ => true
  | _ => false

/-- Example default document used to witness the deep-merge theorem. -/
def sampleDefault : List (String × JValue) :=
  [("a", JValue.num 1),
   ("b", JValue.obj [("x", JValue.num 2), ("y", JValue.num 3)]),
   ("c", JValue.arr [JValue.num 1, JValue.num 2])]

/-- Example override document used to witness the deep-merge theorem. -/
def sampleOverride : List (String × JValue) :=
  [("b", JValue.obj [("y", JValue.num 9)]),
   ("c", JValue.num 7),
   ("d", JValue.str "new")]

/-- The slice of the merged configuration document that
`UIConfigManager.update_from_cli` reads and writes, as a typed record:
`agent.module`, `agent.rootAgent`, `server.port`, `websocket.port`,
`server.host`, `websocket.host`, and the optional `frontend.devPort`. -/
structure UIConfig where
  agentModule : String
  agentRootAgent : String
  serverPort : Int
  websocketPort : Int
  serverHost : List String
  websocketHost : String
  frontendDevPort : Option Int
deriving DecidableEq

/-- Python `s.partition(':')` on the character list of `s`: returns the text
before the first colon, whether a colon was found, and the text after it
(the whole string, `false`, and `[]` when there is no colon). -/
def partitionColon : List Char → List Char × Bool × List Char
  | [] => ([], false, [])
  | c :: rest =>
      if c = ':' then ([], true, rest)
      else
        let p := partitionColon rest
        (c :: p.1, p.2.1, p.2.2)

/-- Python truthiness of an optional string argument (`if kwargs.get(k):`):
present and non-empty. -/
def truthyStr : Option String → Bool
  | none => false
  | some s => !s.data.isEmpty

/-- Python truthiness of an optional integer argument: present and
non-zero. -/
def truthyInt : Option Int → Bool
  | none => false
  | some n => decide (n ≠ 0)

/-- Embeds `UIConfigManager.update_from_cli(agent=…, port=…, ws_port=…, host=…)`:
each override is applied only when its value is truthy; the `agent` spec is
split on the first colon, the module part always assigned, the variable part
assigned only when non-empty; `host` sets the server host to a one-element
list and the websocket host to the bare value. -/
def update_from_cli (cfg : UIConfig) (agent : Option String)
    (port ws_port : Option Int) (host : Option String) : UIConfig :=
  let cfg :=
    if truthyStr agent then
      let a := (agent.getD "").data
      let p := partitionColon a
      let cfg := { cfg with agentModule := String.mk p.1 }
      if p.2.2.isEmpty then cfg
      else { cfg with agentRootAgent := String.mk p.2.2 }
    else cfg
  let cfg :=
    if truthyInt port then { cfg with serverPort := port.getD 0 } else cfg
  let cfg :=
    if truthyInt ws_port then { cfg with websocketPort := ws_port.getD 0 } else cfg
  if truthyStr host then
    { cfg with serverHost := [host.getD ""], websocketHost := host.getD "" }
  else cfg

/-- A configuration snapshot with the default values of the touched fields,
used as concrete input by witnesses. -/
def sampleConfig : UIConfig :=
  ⟨"agent", "root_agent", 50002, 8000, ["localhost", "127.0.0.1"], "localhost", none⟩

/-- A launched child process as the supervisor sees it: its identifier plus
what the OS will report at the supervisor's observation points (the two
liveness polls inside `cleanup`) and whether the terminate/kill calls on it
raise. -/
structure Proc where
  pid : Nat
  runningAtCleanup : Bool
  runningAfterGrace : Bool
  terminateRaises : Bool
  killRaises : Bool
deriving DecidableEq

/-- Embeds `UIProcessManager`: the state is its ordered tracked-process list
`self.processes`. -/
structure UIProcessManager where
  processes : List Proc
deriving DecidableEq

/-- The exceptions the supervisor raises: `FileNotFoundError`,
`RuntimeError` on a failed liveness check (its message directs to the named
log file), `RuntimeError` naming an occupied port, and the
`CalledProcessError` of a failed `npm install`. -/
inductive UIError where
  | fileNotFound (path : String)
  | startupFailed (logFile : String)
  | portInUse (port : Int)
  | dependencyInstall
deriving DecidableEq

/-- What the OS would do during `start_websocket_server`: whether
`websocket-server.py` exists, the process `Popen` would yield, and whether
that process has already exited when polled after the 2-unit settle sleep. -/
structure BackendEnv where
  scriptExists : Bool
  spawnedProc : Proc
  exitsWithinSettle : Bool
deriving DecidableEq

/-- Embeds `UIProcessManager.start_websocket_server`: missing script raises
`FileNotFoundError`; otherwise the process is spawned and appended to
`self.processes`, the supervisor sleeps the 2-unit settle interval and polls:
an exited process raises the startup-failure `RuntimeError`, a live one is
returned. -/
def start_websocket_server (m : UIProcessManager) (env : BackendEnv) :
    UIProcessManager × Except UIError Proc :=
  if !env.scriptExists then
    (m, Except.error (UIError.fileNotFound "websocket-server.py"))
  else
    let m' : UIProcessManager := ⟨m.processes ++ [env.spawnedProc]⟩
    if env.exitsWithinSettle then
      (m', Except.error (UIError.startupFailed "websocket.log"))
    else
      (m', Except.ok env.spawnedProc)

/-- What the OS would do during `start_frontend_server`: whether the
`frontend` directory, the `ui-static` bundle and `node_modules` exist,
whether `npm install` would succeed, the process `Popen` would yield, whether
it has exited when polled after the 3-unit settle sleep, and the content of
`frontend.log` read back after a failure. -/
structure FrontendEnv where
  uiPathExists : Bool
  distExists : Bool
  nodeModulesExists : Bool
  npmInstallSucceeds : Bool
  spawnedProc : Proc
  exitsWithinSettle : Bool
  logContent : List Char
deriving DecidableEq

/-- Result of `start_frontend_server`: the supervisor state afterwards, the
command handed to `Popen` (`none` when nothing was spawned), and the return
value or raised exception (`Except.ok none` is the static short-circuit). -/
structure FrontendResult where
  manager : UIProcessManager
  spawnedCmd : Option (List String)
  result : Except UIError (Option Proc)

/-- Python `needle in haystack` on strings: some suffix of the haystack
starts with the needle. -/
def containsSubstr (haystack needle : List Char) : Bool :=
  match haystack with
  | [] => needle.isEmpty
  | c :: rest => needle.isPrefixOf (c :: rest) || containsSubstr rest needle

/-- Embeds `UIProcessManager.start_frontend_server(dev_mode)`: missing `frontend`
directory raises `FileNotFoundError`; prebuilt `ui-static` with
`dev_mode=False` short-circuits without spawning; `dev_mode=False` without
the bundle falls back to dev mode; missing `node_modules` triggers a
synchronous `npm install` whose failure propagates; the chosen command is
`npm run dev` or `npm run build` by the (possibly fallen-back) `dev_mode`;
the spawned process is appended, the supervisor sleeps the 3-unit settle
interval and polls: on an exited process the log is re-read and the error is
`PortInUseError` naming the resolved dev port if it contains `EADDRINUSE`,
else a generic startup failure directing to `frontend.log`. -/
def start_frontend_server (m : UIProcessManager) (cfg : UIConfig)
    (dev_mode : Bool) (env : FrontendEnv) : FrontendResult :=
  if !env.uiPathExists then
    ⟨m, none, Except.error (UIError.fileNotFound "frontend")⟩
  else if env.distExists && !dev_mode then
    ⟨m, none, Except.ok none⟩
  else
    let dev_mode := if !dev_mode && !env.distExists then true else dev_mode
    if !env.nodeModulesExists && !env.npmInstallSucceeds then
      ⟨m, none, Except.error UIError.dependencyInstall⟩
    else
      let frontend_dev_port := cfg.frontendDevPort.getD 3000
      let cmd := if dev_mode then ["npm", "run", "dev"] else ["npm", "run", "build"]
      let m' : UIProcessManager := ⟨m.processes ++ [env.spawnedProc]⟩
      if env.exitsWithinSettle then
        if containsSubstr env.logContent "EADDRINUSE".data then
          ⟨m', some cmd, Except.error (UIError.portInUse frontend_dev_port)⟩
        else
          ⟨m', some cmd, Except.error (UIError.startupFailed "frontend.log")⟩
      else
        ⟨m', some cmd, Except.ok (some env.spawnedProc)⟩

/-- The observable OS actions of one `cleanup` call, durations in tenths of
a time unit: a delivered terminate signal, the grace sleep, a delivered kill
signal, and a bounded `wait`. -/
inductive CleanupEvent where
  | terminated (pid : Nat)
  | slept (tenths : Nat)
  | killed (pid : Nat)
  | waited (pid : Nat) (timeoutTenths : Nat)
deriving DecidableEq

/-- First `cleanup` loop: `terminate()` on every tracked process still
running, a raising call delivering nothing and being swallowed. -/
def terminatePhase : List Proc → List CleanupEvent
  | [] => []
  | p :: rest =>
      (if p.runningAtCleanup then
        if p.terminateRaises then [] else [CleanupEvent.terminated p.pid]
      else []) ++ terminatePhase rest

/-- Second `cleanup` loop: `kill()` then `wait(timeout=0.5)` on every
tracked process still running after the grace sleep; a raising kill skips
its wait and is swallowed. -/
def killPhase : List Proc → List CleanupEvent
  | [] => []
  | p :: rest =>
      (if p.runningAfterGrace then
        if p.killRaises then []
        else [CleanupEvent.killed p.pid, CleanupEvent.waited p.pid 5]
      else []) ++ killPhase rest

/-- Embeds `UIProcessManager.cleanup`: returns immediately on an empty tracked
list; otherwise runs the terminate loop, sleeps the 0.5-unit grace period,
runs the kill loop and unconditionally clears the tracked list. -/
def cleanup (m : UIProcessManager) : UIProcessManager × List CleanupEvent :=
  if m.processes.isEmpty then (m, [])
  else
    (⟨[]⟩, terminatePhase m.processes
            ++ CleanupEvent.slept 5 :: killPhase m.processes)

/-- A concrete process used by counterexamples and witnesses. -/
def sampleProc : Proc := ⟨1, true, true, false, false⟩

/-- A second concrete process used by witnesses. -/
def sampleProc2 : Proc := ⟨2, true, true, true, true⟩

/-- A configuration with an explicit `frontend.devPort`. -/
def sampleConfigDevPort : UIConfig :=
  ⟨"agent", "root_agent", 50002, 8000, ["localhost", "127.0.0.1"], "localhost",
   some 3107⟩

theorem deepMerge_nil (base : List (String × JValue)) : deepMerge base [] = base := by
  simp [deepMerge]

theorem deepMerge_cons (base : List (String × JValue)) (k : String) (v : JValue)
    (rest : List (String × JValue)) :
    deepMerge base ((k, v) :: rest) = deepMerge (mergeEntry base k v) rest := by
  rw [deepMerge]

theorem mergeEntry_eq_setKey (base : List (String × JValue)) (k : String) (v : JValue) :
    ∃ w, mergeEntry base k v = setKey base k w := by
  unfold mergeEntry
  split
  · exact ⟨_, rfl⟩
  · exact ⟨_, rfl⟩

theorem lookupKey_setKey_self (b : List (String × JValue)) (k : String) (v : JValue) :
    lookupKey (setKey b k v) k = some v := by
  induction b with
  | nil => simp [setKey, lookupKey]
  | cons hd tl ih =>
      obtain ⟨k', v'⟩ := hd
      by_cases h : k' = k
      · simp [setKey, h, lookupKey]
      · simp [setKey, h, lookupKey, ih]

theorem lookupKey_setKey_ne (b : List (String × JValue)) (k' k : String) (v : JValue)
    (h : k' ≠ k) : lookupKey (setKey b k' v) k = lookupKey b k := by
  induction b with
  | nil => simp [setKey, lookupKey, h]
  | cons hd tl ih =>
      obtain ⟨k₀, v₀⟩ := hd
      by_cases h0 : k₀ = k'
      · subst h0
        simp [setKey, lookupKey, h]
      · simp [setKey, h0, lookupKey]
        by_cases h1 : k₀ = k
        · simp [h1]
        · simp [h1, ih]

theorem dictKeys_cons (k : String) (v : JValue) (tl : List (String × JValue)) :
    dictKeys ((k, v) :: tl) = k :: dictKeys tl := rfl

theorem mem_dictKeys_setKey (b : List (String × JValue)) (k' k : String) (v : JValue)
    (h : k ∈ dictKeys b) : k ∈ dictKeys (setKey b k' v) := by
  induction b with
  | nil => simp [dictKeys] at h
  | cons hd tl ih =>
      obtain ⟨k₀, v₀⟩ := hd
      rw [dictKeys_cons] at h
      by_cases h0 : k₀ = k'
      · simp only [setKey, if_pos h0, dictKeys_cons]
        rcases List.mem_cons.mp h with h | h
        · exact List.mem_cons.mpr (Or.inl (h.trans h0))
        · exact List.mem_cons.mpr (Or.inr h)
      · simp only [setKey, if_neg h0, dictKeys_cons]
        rcases List.mem_cons.mp h with h | h
        · exact List.mem_cons.mpr (Or.inl h)
        · exact List.mem_cons.mpr (Or.inr (ih h))

/-- Keys absent from the override are untouched by the merge. -/
theorem deepMerge_absent (update : List (String × JValue)) :
    ∀ base k, k ∉ dictKeys update →
      lookupKey (deepMerge base update) k = lookupKey base k := by
  induction update with
  | nil => intro base k _; simp [deepMerge_nil]
  | cons hd rest ih =>
      intro base k hk
      obtain ⟨k', v⟩ := hd
      have hne : k' ≠ k := by
        intro h; exact hk (by simp [dictKeys, h])
      have hrest : k ∉ dictKeys rest := by
        intro h; exact hk (by simp [dictKeys] at h ⊢; exact Or.inr h)
      rw [deepMerge_cons]
      rw [ih (mergeEntry base k' v) k hrest]
      obtain ⟨w, hw⟩ := mergeEntry_eq_setKey base k' v
      rw [hw, lookupKey_setKey_ne _ _ _ _ hne]

/-- Keys of the base are never deleted by the merge. -/
theorem deepMerge_preserves_keys (update : List (String × JValue)) :
    ∀ base k, k ∈ dictKeys base → k ∈ dictKeys (deepMerge base update) := by
  induction update with
  | nil => intro base k h; simpa [deepMerge_nil] using h
  | cons hd rest ih =>
      intro base k h
      obtain ⟨k', v⟩ := hd
      rw [deepMerge_cons]
      obtain ⟨w, hw⟩ := mergeEntry_eq_setKey base k' v
      exact ih _ k (hw ▸ mem_dictKeys_setKey base k' k w h)

theorem lookupKey_eq_none_of_not_mem (b : List (String × JValue)) (k : String)
    (h : k ∉ dictKeys b) : lookupKey b k = none := by
  induction b with
  | nil => simp [lookupKey]
  | cons hd tl ih =>
      obtain ⟨k₀, v₀⟩ := hd
      have h0 : k₀ ≠ k := by intro he; exact h (by simp [dictKeys, he])
      have h1 : k ∉ dictKeys tl := by
        intro he; exact h (by simp [dictKeys] at he ⊢; exact Or.inr he)
      simp [lookupKey, h0, ih h1]

/-- A key held as a nested mapping on both sides is merged recursively. -/
theorem deepMerge_obj_obj (update : List (String × JValue)) :
    ∀ base k bo uo, (dictKeys update).Nodup →
      lookupKey base k = some (JValue.obj bo) →
      lookupKey update k = some (JValue.obj uo) →
      lookupKey (deepMerge base update) k = some (JValue.obj (deepMerge bo uo)) := by
  induction update with
  | nil => intro base k bo uo _ _ hu; simp [lookupKey] at hu
  | cons hd rest ih =>
      intro base k bo uo hnd hb hu
      obtain ⟨k', v⟩ := hd
      rw [dictKeys_cons] at hnd
      have hnd' : (dictKeys rest).Nodup := (List.nodup_cons.mp hnd).2
      by_cases hk : k' = k
      · subst hk
        have hv : v = JValue.obj uo := by
          simpa [lookupKey] using hu
        subst hv
        have hknotin : k' ∉ dictKeys rest := (List.nodup_cons.mp hnd).1
        rw [deepMerge_cons]
        have hm : mergeEntry base k' (JValue.obj uo)
            = setKey base k' (JValue.obj (deepMerge bo uo)) := by
          unfold mergeEntry
          rw [hb]
        rw [hm, deepMerge_absent rest _ k' hknotin, lookupKey_setKey_self]
      · have hu' : lookupKey rest k = some (JValue.obj uo) := by
          simpa [lookupKey, hk] using hu
        rw [deepMerge_cons]
        obtain ⟨w, hw⟩ := mergeEntry_eq_setKey base k' v
        have hb' : lookupKey (mergeEntry base k' v) k = some (JValue.obj bo) := by
          rw [hw, lookupKey_setKey_ne _ _ _ _ hk, hb]
        exact ih _ k bo uo hnd' hb' hu'

/-- A key held as a non-mapping in the override replaces the base value
wholesale. -/
theorem deepMerge_replace (update : List (String × JValue)) :
    ∀ base k v, (dictKeys update).Nodup →
      lookupKey update k = some v → v.isObj = false →
      lookupKey (deepMerge base update) k = some v := by
  induction update with
  | nil => intro base k v _ hu _; simp [lookupKey] at hu
  | cons hd rest ih =>
      intro base k v hnd hu hobj
      obtain ⟨k', w⟩ := hd
      rw [dictKeys_cons] at hnd
      have hnd' : (dictKeys rest).Nodup := (List.nodup_cons.mp hnd).2
      by_cases hk : k' = k
      · subst hk
        have hv : w = v := by simpa [lookupKey] using hu
        subst hv
        have hknotin : k' ∉ dictKeys rest := (List.nodup_cons.mp hnd).1
        rw [deepMerge_cons]
        have hm : mergeEntry base k' w = setKey base k' w := by
          unfold mergeEntry
          split
          · simp [JValue.isObj] at hobj
          · rfl
        rw [hm, deepMerge_absent rest _ k' hknotin, lookupKey_setKey_self]
      · have hu' : lookupKey rest k = some v := by
          simpa [lookupKey, hk] using hu
        rw [deepMerge_cons]
        exact ih _ k v hnd' hu' hobj

/-- C2: `_deep_merge(D, O)` keeps every key of `D` absent from `O` unchanged,
merges keys held as nested mappings on both sides recursively, replaces keys
held in `O` as non-mappings (lists included) wholesale, and never deletes a
key of `D`. -/
theorem deep_merge_spec (D O : List (String × JValue)) (hO : (dictKeys O).Nodup) :
    (∀ k, k ∉ dictKeys O → lookupKey (deepMerge D O) k = lookupKey D k) ∧
    (∀ k bo uo, lookupKey D k = some (JValue.obj bo) →
      lookupKey O k = some (JValue.obj uo) →
      lookupKey (deepMerge D O) k = some (JValue.obj (deepMerge bo uo))) ∧
    (∀ k v, lookupKey O k = some v → v.isObj = false →
      lookupKey (deepMerge D O) k = some v) ∧
    (∀ k, k ∈ dictKeys D → k ∈ dictKeys (deepMerge D O)) :=
  ⟨fun k h => deepMerge_absent O D k h,
   fun k bo uo hb hu => deepMerge_obj_obj O D k bo uo hO hb hu,
   fun k v hu hv => deepMerge_replace O D k v hO hu hv,
   fun k h => deepMerge_preserves_keys O D k h⟩

/-- Witness for the deep-merge theorem on concrete documents. -/
theorem deep_merge_spec_witness :
    lookupKey (deepMerge sampleDefault sampleOverride) "a" = lookupKey sampleDefault "a" ∧
    lookupKey (deepMerge sampleDefault sampleOverride) "b"
      = some (JValue.obj (deepMerge [("x", JValue.num 2), ("y", JValue.num 3)]
          [("y", JValue.num 9)])) ∧
    lookupKey (deepMerge sampleDefault sampleOverride) "c" = some (JValue.num 7) ∧
    "a" ∈ dictKeys (deepMerge sampleDefault sampleOverride) :=
  ⟨(deep_merge_spec sampleDefault sampleOverride (by decide)).1 "a" (by decide),
   (deep_merge_spec sampleDefault sampleOverride (by decide)).2.1 "b"
     [("x", JValue.num 2), ("y", JValue.num 3)] [("y", JValue.num 9)] rfl rfl,
   (deep_merge_spec sampleDefault sampleOverride (by decide)).2.2.1 "c"
     (JValue.num 7) rfl rfl,
   (deep_merge_spec sampleDefault sampleOverride (by decide)).2.2.2 "a" (by decide)⟩

theorem partitionColon_first (pre post : List Char) (h : ':' ∉ pre) :
    partitionColon (pre ++ ':' :: post) = (pre, true, post) := by
  induction pre with
  | nil => simp [partitionColon]
  | cons c cs ih =>
      have hc : c ≠ ':' := fun he => h (by simp [he])
      have h' : ':' ∉ cs := fun he => h (List.mem_cons.mpr (Or.inr he))
      simp [partitionColon, hc, ih h']

theorem string_mk_data (l : List Char) : (String.mk l).data = l := rfl

/-- C7: `update_from_cli(agent="pkg.mod:myAgent")` sets the module to
`pkg.mod` and the root-agent variable to `myAgent`; `agent="pkg.mod"` sets
only the module; in general the spec is split on the first colon only. -/
theorem update_from_cli_agent_spec (cfg : UIConfig) :
    (update_from_cli cfg (some "pkg.mod:myAgent") none none none).agentModule = "pkg.mod" ∧
    (update_from_cli cfg (some "pkg.mod:myAgent") none none none).agentRootAgent = "myAgent" ∧
    (update_from_cli cfg (some "pkg.mod") none none none).agentModule = "pkg.mod" ∧
    (update_from_cli cfg (some "pkg.mod") none none none).agentRootAgent = cfg.agentRootAgent ∧
    (∀ pre post : List Char, ':' ∉ pre →
      (update_from_cli cfg (some (String.mk (pre ++ ':' :: post)))
          none none none).agentModule = String.mk pre ∧
      (post = [] →
        (update_from_cli cfg (some (String.mk (pre ++ ':' :: post)))
            none none none).agentRootAgent = cfg.agentRootAgent) ∧
      (post ≠ [] →
        (update_from_cli cfg (some (String.mk (pre ++ ':' :: post)))
            none none none).agentRootAgent = String.mk post)) := by
  refine ⟨rfl, rfl, rfl, rfl, ?_⟩
  intro pre post hpre
  have hne : (pre ++ ':' :: post).isEmpty = false := by cases pre <;> rfl
  have hp := partitionColon_first pre post hpre
  refine ⟨?_, ?_, ?_⟩
  · by_cases h0 : post.isEmpty
    · simp [update_from_cli, truthyStr, truthyInt, string_mk_data, hne, hp, h0]
    · simp [update_from_cli, truthyStr, truthyInt, string_mk_data, hne, hp, h0]
  · intro h0
    subst h0
    simp [update_from_cli, truthyStr, truthyInt, string_mk_data, hne, hp]
  · intro h0
    have hpost : post.isEmpty = false := by
      cases post with
      | nil => exact absurd rfl h0
      | cons _ _ => rfl
    simp [update_from_cli, truthyStr, truthyInt, string_mk_data, hne, hp, hpost]

/-- Witness for the agent-spec parsing theorem on concrete input. -/
theorem update_from_cli_agent_spec_witness :
    (update_from_cli sampleConfig (some "pkg.mod:myAgent") none none none).agentModule
      = "pkg.mod" ∧
    (update_from_cli sampleConfig (some (String.mk ("pkg".data ++ ':' :: "sub:agent".data)))
        none none none).agentRootAgent = String.mk "sub:agent".data :=
  ⟨(update_from_cli_agent_spec sampleConfig).1,
   ((update_from_cli_agent_spec sampleConfig).2.2.2.2 "pkg".data "sub:agent".data
      (by decide)).2.2 (by decide)⟩

/-- C10: falsy command-line values (`port=0`, `ws_port=0`, empty agent or
host strings) are skipped by the truthiness guards, leaving the
configuration unchanged; so are absent values. -/
theorem update_from_cli_falsy_noop (cfg : UIConfig) :
    update_from_cli cfg (some "") (some 0) (some 0) (some "") = cfg ∧
    update_from_cli cfg (some "") none none none = cfg ∧
    update_from_cli cfg none (some 0) none none = cfg ∧
    update_from_cli cfg none none (some 0) none = cfg ∧
    update_from_cli cfg none none none (some "") = cfg ∧
    update_from_cli cfg none none none none = cfg :=
  ⟨rfl, rfl, rfl, rfl, rfl, rfl⟩

/-- C1 as stated is false: on a liveness-check failure the tracked list is
not the same as before the call — starting from an empty list it holds the
failed process. -/
theorem start_backend_failure_cx :
    (start_websocket_server ⟨[]⟩ ⟨true, sampleProc, true⟩).2
      = Except.error (UIError.startupFailed "websocket.log") ∧
    (start_websocket_server ⟨[]⟩ ⟨true, sampleProc, true⟩).1.processes ≠ [] :=
  ⟨rfl, by decide⟩

/-- C1 amended: when the backend process has exited at the liveness poll,
`start_websocket_server` raises the startup-failure error, but the failed
process stays on the tracked list — it was appended before the settle sleep,
so the list after the call is the prior list with the failed process
appended. -/
theorem start_backend_failure_keeps_process (m : UIProcessManager)
    (env : BackendEnv) (hs : env.scriptExists = true)
    (he : env.exitsWithinSettle = true) :
    start_websocket_server m env
      = (⟨m.processes ++ [env.spawnedProc]⟩,
         Except.error (UIError.startupFailed "websocket.log")) := by
  simp [start_websocket_server, hs, he]

/-- Witness for the amended C1 theorem on concrete input. -/
theorem start_backend_failure_keeps_process_witness :
    start_websocket_server ⟨[]⟩ ⟨true, sampleProc, true⟩
      = (⟨[sampleProc]⟩, Except.error (UIError.startupFailed "websocket.log")) :=
  start_backend_failure_keeps_process ⟨[]⟩ ⟨true, sampleProc, true⟩ rfl rfl

/-- C3 as stated is false: with `dev_mode=False` and no prebuilt bundle the
spawned command is `npm run dev`, not `npm run build`. -/
theorem frontend_build_cmd_cx :
    (start_frontend_server ⟨[]⟩ sampleConfig false
        ⟨true, false, true, true, sampleProc, false, []⟩).spawnedCmd
      = some ["npm", "run", "dev"] ∧
    (["npm", "run", "dev"] : List String) ≠ ["npm", "run", "build"] :=
  ⟨rfl, by decide⟩

/-- C3 amended: every process `start_frontend_server` spawns runs the
dev-server command — `dev_mode=True` chooses it directly, and
`dev_mode=False` either short-circuits on the prebuilt bundle (spawning
nothing) or falls back to dev mode, so the build command is never the
spawned command. -/
theorem frontend_spawned_cmd_dev (m : UIProcessManager) (cfg : UIConfig)
    (d : Bool) (env : FrontendEnv) (c : List String)
    (h : (start_frontend_server m cfg d env).spawnedCmd = some c) :
    c = ["npm", "run", "dev"] := by
  unfold start_frontend_server at h
  cases d with
  | false =>
      cases hui : env.uiPathExists with
      | false => rw [hui] at h; simp at h
      | true =>
          rw [hui] at h
          cases hdist : env.distExists with
          | true => rw [hdist] at h; simp at h
          | false =>
              rw [hdist] at h
              simp only [Bool.not_false, Bool.not_true, Bool.and_false,
                Bool.and_true, Bool.false_and, Bool.true_and, if_true,
                if_false, Bool.false_eq_true, ite_false, ite_true] at h
              split at h
              · simp_all
              · split at h
                · split at h <;> simp_all
                · simp_all
  | true =>
      cases hui : env.uiPathExists with
      | false => rw [hui] at h; simp at h
      | true =>
          rw [hui] at h
          simp only [Bool.not_true, Bool.and_false, Bool.false_and,
            Bool.false_eq_true, ite_false] at h
          split at h
          · simp_all
          · split at h
            · split at h <;> simp_all
            · simp_all

/-- Witness for the amended C3 theorem: a dev-mode start spawns `npm run
dev`. -/
theorem frontend_spawned_cmd_dev_witness :
    (start_frontend_server ⟨[]⟩ sampleConfig true
        ⟨true, false, true, true, sampleProc, false, []⟩).spawnedCmd
      = some ["npm", "run", "dev"] ∧
    (["npm", "run", "dev"] : List String) = ["npm", "run", "dev"] :=
  ⟨rfl, frontend_spawned_cmd_dev ⟨[]⟩ sampleConfig true
     ⟨true, false, true, true, sampleProc, false, []⟩ ["npm", "run", "dev"] rfl⟩

/-- C4: when the frontend process has exited at the liveness poll, the
raised error is `PortInUseError` naming the resolved dev port exactly when
`frontend.log` contains `EADDRINUSE`, and otherwise the generic
startup-failure error directing to `frontend.log`. -/
theorem frontend_failure_classification (m : UIProcessManager) (cfg : UIConfig)
    (d : Bool) (env : FrontendEnv)
    (hui : env.uiPathExists = true)
    (hsc : (env.distExists && !d) = false)
    (hdeps : (!env.nodeModulesExists && !env.npmInstallSucceeds) = false)
    (hex : env.exitsWithinSettle = true) :
    ((start_frontend_server m cfg d env).result
        = Except.error (UIError.portInUse (cfg.frontendDevPort.getD 3000))
      ↔ containsSubstr env.logContent "EADDRINUSE".data = true) ∧
    (containsSubstr env.logContent "EADDRINUSE".data = false →
      (start_frontend_server m cfg d env).result
        = Except.error (UIError.startupFailed "frontend.log")) := by
  by_cases hc : containsSubstr env.logContent "EADDRINUSE".data
  · simp [start_frontend_server, hui, hsc, hdeps, hex, hc]
  · simp [start_frontend_server, hui, hsc, hdeps, hex, hc]

/-- Witness for the failure-classification theorem: a log holding
`EADDRINUSE` yields the port error naming the configured dev port, a log
without it yields the generic startup failure. -/
theorem frontend_failure_classification_witness :
    (start_frontend_server ⟨[]⟩ sampleConfigDevPort true
        ⟨true, false, true, true, sampleProc, true,
         "Error: listen EADDRINUSE: address already in use".data⟩).result
      = Except.error (UIError.portInUse 3107) ∧
    (start_frontend_server ⟨[]⟩ sampleConfigDevPort true
        ⟨true, false, true, true, sampleProc, true,
         "SyntaxError: unexpected token".data⟩).result
      = Except.error (UIError.startupFailed "frontend.log") :=
  ⟨(frontend_failure_classification ⟨[]⟩ sampleConfigDevPort true
      ⟨true, false, true, true, sampleProc, true,
       "Error: listen EADDRINUSE: address already in use".data⟩
      rfl rfl rfl rfl).1.mpr (by decide),
   (frontend_failure_classification ⟨[]⟩ sampleConfigDevPort true
      ⟨true, false, true, true, sampleProc, true,
       "SyntaxError: unexpected token".data⟩
      rfl rfl rfl rfl).2 (by decide)⟩

/-- C8: with the prebuilt `ui-static` bundle present and `dev_mode=False`,
`start_frontend_server` spawns nothing, returns no process, and leaves the
supervisor (hence the tracked list) exactly as it was. -/
theorem frontend_static_short_circuit (m : UIProcessManager) (cfg : UIConfig)
    (env : FrontendEnv) (hui : env.uiPathExists = true)
    (hdist : env.distExists = true) :
    start_frontend_server m cfg false env = ⟨m, none, Except.ok none⟩ ∧
    (start_frontend_server m cfg false env).manager.processes = m.processes := by
  constructor
  · simp [start_frontend_server, hui, hdist]
  · simp [start_frontend_server, hui, hdist]

/-- Witness for the static short-circuit theorem on concrete input. -/
theorem frontend_static_short_circuit_witness :
    start_frontend_server ⟨[sampleProc]⟩ sampleConfig false
        ⟨true, true, true, true, sampleProc2, false, []⟩
      = ⟨⟨[sampleProc]⟩, none, Except.ok none⟩ :=
  (frontend_static_short_circuit ⟨[sampleProc]⟩ sampleConfig
     ⟨true, true, true, true, sampleProc2, false, []⟩ rfl rfl).1

/-- C9: starting from a fresh supervisor, a successful
`start_websocket_server` followed by a successful process-spawning
`start_frontend_server` leaves the tracked list `[backend, frontend]`, the
backend first. -/
theorem startup_order (m : UIProcessManager) (envB : BackendEnv)
    (cfg : UIConfig) (d : Bool) (envF : FrontendEnv)
    (h0 : m.processes = [])
    (hs : envB.scriptExists = true) (hb : envB.exitsWithinSettle = false)
    (hui : envF.uiPathExists = true) (hdist : envF.distExists = false)
    (hnm : envF.nodeModulesExists = true) (hf : envF.exitsWithinSettle = false) :
    (start_websocket_server m envB).2 = Except.ok envB.spawnedProc ∧
    (start_frontend_server (start_websocket_server m envB).1 cfg d envF).result
      = Except.ok (some envF.spawnedProc) ∧
    (start_frontend_server (start_websocket_server m envB).1 cfg d envF).manager.processes
      = [envB.spawnedProc, envF.spawnedProc] ∧
    (start_frontend_server (start_websocket_server m envB).1 cfg d
        envF).manager.processes.head?
      = some envB.spawnedProc := by
  cases d <;>
    simp [start_websocket_server, start_frontend_server, hs, hb, hui, hdist,
      hnm, hf, h0]

/-- Witness for the startup-ordering theorem on concrete input. -/
theorem startup_order_witness :
    (start_frontend_server (start_websocket_server ⟨[]⟩ ⟨true, sampleProc, false⟩).1
        sampleConfig true ⟨true, false, true, true, sampleProc2, false, []⟩).manager.processes
      = [sampleProc, sampleProc2] :=
  (startup_order ⟨[]⟩ ⟨true, sampleProc, false⟩ sampleConfig true
     ⟨true, false, true, true, sampleProc2, false, []⟩
     rfl rfl rfl rfl rfl rfl rfl).2.2.1

/-- C5: `cleanup` is total and idempotent — on an empty tracked list it is a
no-op with no events, every call leaves the tracked list empty, and a second
call is a no-op. -/
theorem cleanup_idempotent (m : UIProcessManager) :
    (m.processes = [] → cleanup m = (m, [])) ∧
    (cleanup m).1.processes = [] ∧
    cleanup (cleanup m).1 = ((cleanup m).1, []) := by
  have hempty : ∀ m' : UIProcessManager, m'.processes = [] → cleanup m' = (m', []) :=
    fun m' h => by simp [cleanup, h]
  have h1 : (cleanup m).1.processes = [] := by
    obtain ⟨ps⟩ := m
    cases ps with
    | nil => simp [cleanup]
    | cons p rest => simp [cleanup]
  exact ⟨hempty m, h1, hempty _ h1⟩

/-- Witness for the cleanup-idempotence theorem on concrete input. -/
theorem cleanup_idempotent_witness :
    (cleanup ⟨[sampleProc]⟩).1.processes = [] ∧
    cleanup (cleanup ⟨[sampleProc]⟩).1 = ((cleanup ⟨[sampleProc]⟩).1, []) ∧
    cleanup ⟨[]⟩ = (⟨[]⟩, []) :=
  ⟨(cleanup_idempotent ⟨[sampleProc]⟩).2.1,
   (cleanup_idempotent ⟨[sampleProc]⟩).2.2,
   (cleanup_idempotent ⟨[]⟩).1 rfl⟩

theorem terminatePhase_eq (ps : List Proc) :
    terminatePhase ps
      = (ps.filter fun p => p.runningAtCleanup && !p.terminateRaises).map
          (fun p => CleanupEvent.terminated p.pid) := by
  induction ps with
  | nil => rfl
  | cons p rest ih =>
      by_cases h1 : p.runningAtCleanup <;> by_cases h2 : p.terminateRaises <;>
        simp [terminatePhase, List.filter_cons, h1, h2, ih]

theorem killPhase_eq (ps : List Proc) :
    killPhase ps
      = (ps.filter fun p => p.runningAfterGrace && !p.killRaises).bind
          (fun p => [CleanupEvent.killed p.pid, CleanupEvent.waited p.pid 5]) := by
  induction ps with
  | nil => rfl
  | cons p rest ih =>
      by_cases h1 : p.runningAfterGrace <;> by_cases h2 : p.killRaises <;>
        simp [killPhase, List.filter_cons, List.cons_bind, h1, h2, ih]

/-- C6: on a non-empty tracked list, `cleanup` performs exactly: terminate
signals to the still-running processes whose terminate call does not raise,
the 0.5-unit grace sleep, then kill plus a 0.5-unit-bounded wait for the
processes still running afterwards whose kill does not raise — and the
tracked list is cleared unconditionally. -/
theorem cleanup_sequence (m : UIProcessManager) (h : m.processes ≠ []) :
    cleanup m
      = (⟨[]⟩,
         ((m.processes.filter fun p => p.runningAtCleanup && !p.terminateRaises).map
            fun p => CleanupEvent.terminated p.pid)
          ++ CleanupEvent.slept 5
            :: ((m.processes.filter fun p => p.runningAfterGrace && !p.killRaises).bind
                 fun p => [CleanupEvent.killed p.pid, CleanupEvent.waited p.pid 5])) := by
  have hie : m.processes.isEmpty = false := by
    cases hp : m.processes with
    | nil => exact absurd hp h
    | cons _ _ => rfl
  simp [cleanup, hie, terminatePhase_eq, killPhase_eq]

/-- Witness for the cleanup-sequence theorem: one healthy running process,
one whose signal deliveries raise, one already exited. -/
theorem cleanup_sequence_witness :
    cleanup ⟨[sampleProc, sampleProc2, ⟨3, false, false, false, false⟩]⟩
      = (⟨[]⟩, [CleanupEvent.terminated 1, CleanupEvent.slept 5,
                CleanupEvent.killed 1, CleanupEvent.waited 1 5]) :=
  (cleanup_sequence ⟨[sampleProc, sampleProc2, ⟨3, false, false, false, false⟩]⟩
     (by decide)).trans (by decide)
